import Mathlib

/-!
# Shop repository: a shallow embedding of `repository/repository.go`

The Go package keeps two maps, `products` and `customers`, and offers four
methods on `*Repository`: `ViewProducts`, `ViewProductDetails`, `AddToCart`
and `ViewCart`.

Modelling decisions, all taken from the Go source and the Go language
definition:

* `int` is the 64-bit two's-complement integer (its size on 64-bit platforms); `-` wraps
  around instead of failing.
* `map[string]V` held *by value inside the repository struct* is a finite
  list of key/value pairs with pairwise different keys.  The order of the
  list stands for the (unspecified) order in which `range` visits the map.
  A nil map and an empty map read alike, and the repository maps are written
  only after a successful read of the same key, so the two need not be told
  apart there.
* `Customer.Cart` is a map *reference*: it is either nil or the address of a
  map object.  The map objects live in `Store.heap`.  Writing through a nil
  map is a run-time panic.
* a method call either returns or panics; `none` stands for a panic.
-/

namespace Shop

/-! ## Machine integers -/

/-- Smallest value of Go's `int` (64 bit). -/
def minInt : Int := -9223372036854775808

/-- Largest value of Go's `int` (64 bit). -/
def maxInt : Int := 9223372036854775807

/-- Two's-complement wrap-around of a mathematical integer into the `int` range. -/
def wrapInt (z : Int) : Int := (z + 9223372036854775808) % 18446744073709551616 - 9223372036854775808

theorem wrapInt_lo (z : Int) : minInt ≤ wrapInt z := by
  unfold wrapInt minInt; omega

theorem wrapInt_hi (z : Int) : wrapInt z ≤ maxInt := by
  unfold wrapInt maxInt; omega

theorem wrapInt_of_inRange (z : Int) (h1 : minInt ≤ z) (h2 : z ≤ maxInt) : wrapInt z = z := by
  unfold wrapInt; unfold minInt at h1; unfold maxInt at h2; omega

/-- A value of Go's `int`: an integer inside the 64-bit signed range. -/
structure GoInt where
  toInt : Int
  lo : minInt ≤ toInt
  hi : toInt ≤ maxInt

theorem GoInt.ext_toInt {a b : GoInt} (h : a.toInt = b.toInt) : a = b := by
  cases a; cases b; cases h; rfl

instance : DecidableEq GoInt := fun a b =>
  if h : a.toInt = b.toInt then isTrue (GoInt.ext_toInt h)
  else isFalse (fun e => h (congrArg GoInt.toInt e))

/-- The `int` with the given value, wrapped into range. -/
def GoInt.ofInt (z : Int) : GoInt := ⟨wrapInt z, wrapInt_lo z, wrapInt_hi z⟩

/-- Go's `a - b` on `int`: the mathematical difference, wrapped. -/
def GoInt.sub (a b : GoInt) : GoInt := GoInt.ofInt (a.toInt - b.toInt)

/-- The zero value of `int`. -/
def GoInt.zero : GoInt := ⟨0, by decide, by decide⟩

/-- A `float64`, kept as its IEEE-754 bit pattern; the repository only copies prices. -/
structure Float64 where
  bits : Fin 18446744073709551616
deriving DecidableEq

/-- The zero value of `float64` (`+0.0`). -/
def Float64.zero : Float64 := ⟨0⟩

/-! ## Go maps with string keys -/

/-- The key/value list after `m[k] = v`: an existing entry is replaced in place, a new one appended. -/
def setEntries {V : Type} (k : String) (v : V) : List (String × V) → List (String × V)
  | [] => [(k, v)]
  | (k1, v1) :: rest => if k1 = k then (k, v) :: rest else (k1, v1) :: setEntries k v rest

theorem setEntries_keys_mem {V : Type} (k : String) (v : V) (l : List (String × V)) (x : String) :
    x ∈ (setEntries k v l).map Prod.fst ↔ x = k ∨ x ∈ l.map Prod.fst := by
  induction l with
  | nil => simp [setEntries]
  | cons hd tl ih =>
    obtain ⟨k1, v1⟩ := hd
    by_cases hk : k1 = k
    · subst hk; simp [setEntries]
    · simp only [setEntries, hk, if_false, List.map_cons, List.mem_cons, ih]
      tauto

theorem setEntries_nodup {V : Type} (k : String) (v : V) (l : List (String × V))
    (h : (l.map Prod.fst).Nodup) : ((setEntries k v l).map Prod.fst).Nodup := by
  induction l with
  | nil => simp [setEntries]
  | cons hd tl ih =>
    obtain ⟨k1, v1⟩ := hd
    rw [List.map_cons, List.nodup_cons] at h
    by_cases hk : k1 = k
    · subst hk
      simp only [setEntries, if_true, List.map_cons, List.nodup_cons]
      exact h
    · simp only [setEntries, hk, if_false, List.map_cons, List.nodup_cons]
      refine ⟨?_, ih h.2⟩
      rw [setEntries_keys_mem]
      rintro (h1 | h1)
      · exact hk h1
      · exact h.1 h1

/-- A Go `map[string]V`: finitely many entries with pairwise different keys. -/
structure GoMap (V : Type) where
  entries : List (String × V)
  nodupKeys : (entries.map Prod.fst).Nodup

namespace GoMap

variable {V : Type}

theorem ext_entries {m1 m2 : GoMap V} (h : m1.entries = m2.entries) : m1 = m2 := by
  cases m1; cases m2; cases h; rfl

/-- The map `make(map[string]V)`. -/
def empty : GoMap V := ⟨[], List.nodup_nil⟩

/-- The read `v, ok := m[k]`: `some v` when `ok`, `none` otherwise. -/
def get (m : GoMap V) (k : String) : Option V := m.entries.lookup k

/-- The write `m[k] = v`. -/
def set (m : GoMap V) (k : String) (v : V) : GoMap V :=
  ⟨setEntries k v m.entries, setEntries_nodup k v m.entries m.nodupKeys⟩

/-- Value of `len(m)`. -/
def len (m : GoMap V) : Nat := m.entries.length

/-- The keys of the map, in iteration order. -/
def keys (m : GoMap V) : List String := m.entries.map Prod.fst

end GoMap

/-! ## The types of package `types` -/

/-- Modelled from the spec: `types.Product` (package `types` is not among the sources); the
fields are those listed in the header comment of `repository.go` and in the data model. -/
structure Product where
  Name : String
  Price : Float64
  Quantity : GoInt
deriving DecidableEq

/-- The zero value `types.Product{}`. -/
def Product.zero : Product := ⟨"", Float64.zero, GoInt.zero⟩

/-- Modelled from the spec: `types.Customer` (package `types` is not among the sources); `Cart`
is a `map[string]int`, hence a reference: `none` is the nil map, `some a` the map object at
address `a`. -/
structure Customer where
  Name : String
  Email : String
  Cart : Option Nat
deriving DecidableEq

/-- Modelled from the spec: `types.Order` (package `types` is not among the sources), one line
of a cart listing. -/
structure Order where
  Product : String
  Quantity : GoInt
deriving DecidableEq

/-! ## The repository -/

/-- The three sentinel errors of the package. -/
inductive Error where
  | ErrProductNotFound
  | ErrCustomerNotFound
  | ErrNotEnoughQuantity
deriving DecidableEq

/-- The struct `Repository`. -/
structure Repository where
  products : GoMap Product
  customers : GoMap Customer

/-- The whole store state: the repository struct and the map objects that `Cart` fields
point to. -/
structure Store where
  repo : Repository
  heap : Nat → GoMap GoInt

/-- The state built by `New()`: two fresh empty maps. -/
def New (heap : Nat → GoMap GoInt) : Store :=
  ⟨⟨GoMap.empty, GoMap.empty⟩, heap⟩

/-- The map a `Cart` field denotes when read: a nil map reads as the empty map. -/
def Store.cart (s : Store) (c : Customer) : GoMap GoInt :=
  match c.Cart with
  | none => GoMap.empty
  | some a => s.heap a

/-- What `ViewProducts` does: collect every product, in iteration order. -/
def ViewProducts (s : Store) : Store × List Product :=
  (s, s.repo.products.entries.map (fun kv => kv.2))

/-- What `ViewProductDetails` does. -/
def ViewProductDetails (s : Store) (productName : String) : Store × Product × Option Error :=
  match s.repo.products.get productName with
  | none => (s, Product.zero, some Error.ErrProductNotFound)
  | some product => (s, product, none)

/-- What `AddToCart` does.  `none` is the run-time panic of an assignment to an entry
of a nil map. -/
def AddToCart (s : Store) (customerEmail productName : String) (quantity : GoInt) :
    Option (Store × Option Error) :=
  match s.repo.customers.get customerEmail with
  | none => some (s, some Error.ErrCustomerNotFound)
  | some customer =>
    match s.repo.products.get productName with
    | none => some (s, some Error.ErrProductNotFound)
    | some product =>
      if quantity.toInt > product.Quantity.toInt then
        some (s, some Error.ErrNotEnoughQuantity)
      else
        match customer.Cart with
        | none => none
        | some a =>
          let heap1 := Function.update s.heap a ((s.heap a).set productName quantity)
          let product1 : Product := { product with Quantity := product.Quantity.sub quantity }
          some (⟨⟨s.repo.products.set productName product1,
                  s.repo.customers.set customerEmail customer⟩, heap1⟩, none)

/-- What `ViewCart` does: one order line per cart entry, in iteration order. -/
def ViewCart (s : Store) (customerEmail : String) : Store × List Order × Option Error :=
  match s.repo.customers.get customerEmail with
  | none => (s, [], some Error.ErrCustomerNotFound)
  | some customer =>
    (s, (s.cart customer).entries.map (fun kv => Order.mk kv.1 kv.2), none)

/-- Remaining stock of the product stored under `productName`, if there is one. -/
def Store.stock (s : Store) (productName : String) : Option GoInt :=
  (s.repo.products.get productName).map (fun product => product.Quantity)

/-- The cart of the customer stored under `customerEmail`, if there is one. -/
def Store.cartOf (s : Store) (customerEmail : String) : Option (GoMap GoInt) :=
  (s.repo.customers.get customerEmail).map (fun customer => s.cart customer)

/-! ## Example stores -/

/-- The `int` 4. -/
def int4 : GoInt := ⟨4, by decide, by decide⟩

/-- The `int` 3. -/
def int3 : GoInt := ⟨3, by decide, by decide⟩

/-- The `int` 6. -/
def int6 : GoInt := ⟨6, by decide, by decide⟩

/-- The `int` 10. -/
def int10 : GoInt := ⟨10, by decide, by decide⟩

/-- The `int` 20. -/
def int20 : GoInt := ⟨20, by decide, by decide⟩

/-- The `int` -1. -/
def intNeg1 : GoInt := ⟨-1, by decide, by decide⟩

/-- The largest `int`. -/
def intMax : GoInt := ⟨maxInt, by decide, by decide⟩

/-- The price 9.99 as a `float64`. -/
def price999 : Float64 := ⟨4621813771234349179⟩

/-- A map with the single entry `k ↦ v`. -/
def GoMap.single {V : Type} (k : String) (v : V) : GoMap V := ⟨[(k, v)], by simp⟩

/-- A heap in which every map object is empty. -/
def emptyHeap : Nat → GoMap GoInt := fun _ => GoMap.empty

/-- Customer `c` whose cart is the map object at address 0. -/
def custC : Customer := ⟨"C", "c", some 0⟩

/-- Customer `c` whose `Cart` field is the nil map. -/
def custNil : Customer := ⟨"C", "c", none⟩

/-- A store with one product `Widget` of the given stock and the one customer given. -/
def shopWith (stock : GoInt) (customer : Customer) (heap : Nat → GoMap GoInt) : Store :=
  ⟨⟨GoMap.single "Widget" ⟨"Widget", price999, stock⟩, GoMap.single "c" customer⟩, heap⟩

/-- A heap whose map object 0 already reserves 3 Widgets. -/
def heapWidget3 : Nat → GoMap GoInt := Function.update emptyHeap 0 (GoMap.single "Widget" int3)

/-- The store reached from `shopWith int10 custC heapWidget3` by reserving 4 Widgets. -/
def shopAfter4 : Store :=
  ⟨⟨GoMap.single "Widget" ⟨"Widget", price999, int6⟩, GoMap.single "c" custC⟩,
   Function.update heapWidget3 0 (GoMap.single "Widget" int4)⟩

/-- A store with customer `c` and an empty catalog. -/
def shopNoProduct : Store := ⟨⟨GoMap.empty, GoMap.single "c" custC⟩, emptyHeap⟩

/-! ## Sequences of operations -/

/-- One call of a method of `Repository`, with its arguments. -/
inductive Op where
  | viewProducts
  | viewProductDetails (productName : String)
  | addToCart (customerEmail productName : String) (quantity : GoInt)
  | viewCart (customerEmail : String)

/-- The store an operation leaves behind when it returns; `none` when it panics. -/
def step (s : Store) : Op → Option Store
  | Op.viewProducts => some (ViewProducts s).1
  | Op.viewProductDetails productName => some (ViewProductDetails s productName).1
  | Op.addToCart customerEmail productName quantity =>
    (AddToCart s customerEmail productName quantity).map Prod.fst
  | Op.viewCart customerEmail => some (ViewCart s customerEmail).1

/-- The store after a sequence of calls.  A panic ends the run; it strikes before the first
write of the call, so the store is then what the panicking call found. -/
def run (s : Store) : List Op → Store
  | [] => s
  | op :: ops =>
    match step s op with
    | none => s
    | some s1 => run s1 ops

/-- Every product in the catalog has a quantity of at least zero. -/
def NonNegStock (s : Store) : Prop :=
  ∀ kv ∈ s.repo.products.entries, 0 ≤ kv.2.Quantity.toInt

instance (s : Store) : Decidable (NonNegStock s) := by
  unfold NonNegStock; infer_instance

/-- The subtraction of an `AddToCart` call does not leave the `int` range: the stock of the
named product (if there is one) minus the quantity is at most `maxInt`.  Other calls do not
subtract. -/
def Op.noWrap (s : Store) : Op → Prop
  | Op.addToCart _ productName quantity =>
    match s.repo.products.get productName with
    | none => True
    | some product => product.Quantity.toInt - quantity.toInt ≤ maxInt
  | _ => True

instance (s : Store) (op : Op) : Decidable (op.noWrap s) :=
  match op with
  | Op.viewProducts => isTrue trivial
  | Op.viewProductDetails _ => isTrue trivial
  | Op.viewCart _ => isTrue trivial
  | Op.addToCart _ productName quantity =>
    match h : s.repo.products.get productName with
    | none => isTrue (by simp only [Op.noWrap, h])
    | some product =>
      if h2 : product.Quantity.toInt - quantity.toInt ≤ maxInt then
        isTrue (by simp only [Op.noWrap, h]; exact h2)
      else isFalse (by simp only [Op.noWrap, h]; exact h2)

/-- No call of the sequence wraps the stock, each judged in the store it runs in. -/
def NoWrap (s : Store) : List Op → Prop
  | [] => True
  | op :: ops =>
    op.noWrap s ∧
      match step s op with
      | none => True
      | some s1 => NoWrap s1 ops

instance NoWrap.decide : (s : Store) → (ops : List Op) → Decidable (NoWrap s ops)
  | _, [] => isTrue trivial
  | s, op :: ops =>
    if h1 : op.noWrap s then
      match h : step s op with
      | none => isTrue (by simp only [NoWrap, h, and_true]; exact h1)
      | some s1 =>
        match NoWrap.decide s1 ops with
        | isTrue h2 => isTrue (by simp only [NoWrap, h]; exact ⟨h1, h2⟩)
        | isFalse h2 => isFalse (by simp only [NoWrap, h]; exact fun h3 => h2 h3.2)
    else isFalse (fun h3 => h1 h3.1)

/-- The quantity argument of a call is at least zero (calls other than `AddToCart` have none). -/
def Op.quantityNonNeg : Op → Prop
  | Op.addToCart _ _ quantity => 0 ≤ quantity.toInt
  | _ => True

/-- The quantity argument of a call is above zero (calls other than `AddToCart` have none). -/
def Op.quantityPos : Op → Prop
  | Op.addToCart _ _ quantity => 0 < quantity.toInt
  | _ => True

instance (op : Op) : Decidable op.quantityPos :=
  match op with
  | Op.viewProducts => isTrue trivial
  | Op.viewProductDetails _ => isTrue trivial
  | Op.viewCart _ => isTrue trivial
  | Op.addToCart _ _ quantity =>
    if h : 0 < quantity.toInt then isTrue h else isFalse h

/-! ## Quantities summed over the store -/

/-- The quantity a cart holds for a product; a missing entry counts as zero. -/
def cartQty (m : GoMap GoInt) (productName : String) : Int :=
  match m.get productName with
  | none => 0
  | some quantity => quantity.toInt

/-- What all customers together have reserved of a product: the sum of their cart entries. -/
def Store.reserved (s : Store) (productName : String) : Int :=
  (s.repo.customers.entries.map (fun kv => cartQty (s.cart kv.2) productName)).sum

/-- Remaining stock of a product as an integer; zero when the catalog has no such product. -/
def Store.stockInt (s : Store) (productName : String) : Int :=
  match s.repo.products.get productName with
  | none => 0
  | some product => product.Quantity.toInt

/-- Every customer's cart is empty. -/
def CartsEmpty (s : Store) : Prop :=
  ∀ kv ∈ s.repo.customers.entries, (s.cart kv.2).len = 0

instance (s : Store) : Decidable (CartsEmpty s) := by
  unfold CartsEmpty; infer_instance

/-- No two customer records point to the same cart map object. -/
def NoSharedCart (s : Store) : Prop :=
  (s.repo.customers.entries.filterMap (fun kv => kv.2.Cart)).Nodup

instance (s : Store) : Decidable (NoSharedCart s) := by
  unfold NoSharedCart; infer_instance

/-- No cart entry of any customer is below zero. -/
def CartsNonNeg (s : Store) : Prop :=
  ∀ kv ∈ s.repo.customers.entries, ∀ x ∈ (s.cart kv.2).entries, 0 ≤ x.2.toInt

instance (s : Store) : Decidable (CartsNonNeg s) := by
  unfold CartsNonNeg; infer_instance

/-- Every key of every customer's cart is the key of a product in the catalog. -/
def CartKeysInCatalog (s : Store) : Prop :=
  ∀ kv ∈ s.repo.customers.entries, ∀ k ∈ (s.cart kv.2).keys, k ∈ s.repo.products.keys

instance (s : Store) : Decidable (CartKeysInCatalog s) := by
  unfold CartKeysInCatalog; infer_instance

/-- Every product is stored under its own name. -/
def KeyedByName (s : Store) : Prop :=
  ∀ kv ∈ s.repo.products.entries, kv.2.Name = kv.1

instance (s : Store) : Decidable (KeyedByName s) := by
  unfold KeyedByName; infer_instance

/-! ## More example stores -/

/-- The `int` 0. -/
def int0 : GoInt := ⟨0, by decide, by decide⟩

/-- The `int` 1. -/
def int1 : GoInt := ⟨1, by decide, by decide⟩

/-- The `int` 2. -/
def int2 : GoInt := ⟨2, by decide, by decide⟩

/-- The smallest `int`. -/
def intMin : GoInt := ⟨minInt, by decide, by decide⟩

/-- Customer `d`, whose `Cart` is the same map object (address 0) as that of `custC`. -/
def custD : Customer := ⟨"D", "d", some 0⟩

/-- A store with one product `Widget` and the two customers `c` and `d` sharing one cart map. -/
def shopShared (stock : GoInt) : Store :=
  ⟨⟨GoMap.single "Widget" ⟨"Widget", price999, stock⟩,
    ⟨[("c", custC), ("d", custD)], by decide⟩⟩, emptyHeap⟩

/-- A heap whose map object 0 is the cart `{A: 2, B: 1}`. -/
def heapAB : Nat → GoMap GoInt :=
  Function.update emptyHeap 0 ⟨[("A", int2), ("B", int1)], by decide⟩

/-- A store with the products `A` and `B` and customer `c` holding the cart `{A: 2, B: 1}`. -/
def shopAB : Store :=
  ⟨⟨⟨[("A", ⟨"A", price999, int3⟩), ("B", ⟨"B", price999, int4⟩)], by decide⟩,
    GoMap.single "c" custC⟩, heapAB⟩

/-! ## Facts about map reads and writes -/

theorem lookup_setEntries_self {V : Type} (k : String) (v : V) (l : List (String × V)) :
    (setEntries k v l).lookup k = some v := by
  induction l with
  | nil => simp [setEntries, List.lookup]
  | cons hd tl ih =>
    obtain ⟨k1, v1⟩ := hd
    by_cases hk : k1 = k
    · simp [setEntries, hk, List.lookup]
    · have hk2 : (k == k1) = false := by
        simpa using fun e => hk e.symm
      simp [setEntries, hk, List.lookup, hk2, ih]

theorem lookup_setEntries_ne {V : Type} (k : String) (v : V) (l : List (String × V))
    (x : String) (hx : x ≠ k) : (setEntries k v l).lookup x = l.lookup x := by
  induction l with
  | nil =>
    have hx2 : (x == k) = false := by simpa using hx
    simp [setEntries, List.lookup, hx2]
  | cons hd tl ih =>
    obtain ⟨k1, v1⟩ := hd
    by_cases hk : k1 = k
    · subst hk
      have hx2 : (x == k1) = false := by simpa using hx
      simp [setEntries, List.lookup, hx2]
    · by_cases hxk : x = k1
      · subst hxk
        simp [setEntries, hk, List.lookup]
      · have hx2 : (x == k1) = false := by simpa using hxk
        simp [setEntries, hk, List.lookup, hx2, ih]

theorem setEntries_of_lookup {V : Type} (k : String) (v : V) (l : List (String × V))
    (h : l.lookup k = some v) : setEntries k v l = l := by
  induction l with
  | nil => simp [List.lookup] at h
  | cons hd tl ih =>
    obtain ⟨k1, v1⟩ := hd
    by_cases hk : k1 = k
    · subst hk
      simp [List.lookup] at h
      simp [setEntries, h]
    · have hk2 : (k == k1) = false := by
        simpa using fun e => hk e.symm
      simp only [List.lookup, hk2] at h
      simp [setEntries, hk, ih h]

theorem GoMap.get_set_self {V : Type} (m : GoMap V) (k : String) (v : V) :
    (m.set k v).get k = some v :=
  lookup_setEntries_self k v m.entries

theorem GoMap.get_set_ne {V : Type} (m : GoMap V) (k : String) (v : V) (x : String)
    (hx : x ≠ k) : (m.set k v).get x = m.get x :=
  lookup_setEntries_ne k v m.entries x hx

theorem GoMap.set_of_get {V : Type} (m : GoMap V) (k : String) (v : V)
    (h : m.get k = some v) : m.set k v = m :=
  GoMap.ext_entries (setEntries_of_lookup k v m.entries h)

theorem mem_setEntries {V : Type} (k : String) (v : V) (l : List (String × V))
    (x : String × V) (hx : x ∈ setEntries k v l) : x = (k, v) ∨ x ∈ l := by
  induction l with
  | nil => simpa [setEntries] using hx
  | cons hd tl ih =>
    obtain ⟨k1, v1⟩ := hd
    by_cases hk : k1 = k
    · simp only [setEntries, hk, if_true, List.mem_cons] at hx
      rcases hx with hx | hx
      · exact Or.inl hx
      · exact Or.inr (List.mem_cons_of_mem _ hx)
    · simp only [setEntries, hk, if_false, List.mem_cons] at hx
      rcases hx with hx | hx
      · exact Or.inr (hx ▸ List.mem_cons_self _ _)
      · rcases ih hx with h1 | h1
        · exact Or.inl h1
        · exact Or.inr (List.mem_cons_of_mem _ h1)

theorem mem_of_lookup {V : Type} (l : List (String × V)) (k : String) (v : V)
    (h : l.lookup k = some v) : (k, v) ∈ l := by
  induction l with
  | nil => simp [List.lookup] at h
  | cons hd tl ih =>
    obtain ⟨k1, v1⟩ := hd
    by_cases hk : k = k1
    · subst hk
      simp [List.lookup] at h
      simp [h]
    · have hk2 : (k == k1) = false := by simpa using hk
      simp only [List.lookup, hk2] at h
      exact List.mem_cons_of_mem _ (ih h)

theorem lookup_of_mem {V : Type} (l : List (String × V)) (k : String) (v : V)
    (hn : (l.map Prod.fst).Nodup) (h : (k, v) ∈ l) : l.lookup k = some v := by
  induction l with
  | nil => simp at h
  | cons hd tl ih =>
    obtain ⟨k1, v1⟩ := hd
    rw [List.map_cons, List.nodup_cons] at hn
    rcases List.mem_cons.mp h with h1 | h1
    · cases h1
      simp [List.lookup]
    · have hk : k ≠ k1 := by
        rintro rfl
        exact hn.1 (List.mem_map.mpr ⟨(k, v), h1, rfl⟩)
      have hk2 : (k == k1) = false := by simpa using hk
      simp only [List.lookup, hk2]
      exact ih hn.2 h1

/-- Unfolding of `AddToCart` on the path where customer and product are found, the
quantity fits and the cart is a map object. -/
theorem AddToCart_ok_eq (s : Store) (e p : String) (q : GoInt) (c : Customer) (prod : Product)
    (a : Nat) (hc : s.repo.customers.get e = some c) (hp : s.repo.products.get p = some prod)
    (hq : q.toInt ≤ prod.Quantity.toInt) (ha : c.Cart = some a) :
    AddToCart s e p q =
      some (⟨⟨s.repo.products.set p { prod with Quantity := prod.Quantity.sub q },
              s.repo.customers⟩,
             Function.update s.heap a ((s.heap a).set p q)⟩, none) := by
  have hq2 : ¬ (q.toInt > prod.Quantity.toInt) := not_lt.mpr hq
  simp only [AddToCart, hc, hp, hq2, if_false, ha, GoMap.set_of_get _ _ _ hc]

/-- Every way `AddToCart` can return: the three error exits leave the store as it was, and
the success exit is the one of `AddToCart_ok_eq`. -/
theorem AddToCart_cases (s s1 : Store) (e p : String) (q : GoInt) (r : Option Error)
    (h : AddToCart s e p q = some (s1, r)) :
    (s1 = s ∧ r = some Error.ErrCustomerNotFound ∧ s.repo.customers.get e = none) ∨
    (s1 = s ∧ r = some Error.ErrProductNotFound ∧ (∃ c, s.repo.customers.get e = some c) ∧
      s.repo.products.get p = none) ∨
    (s1 = s ∧ r = some Error.ErrNotEnoughQuantity ∧ (∃ c, s.repo.customers.get e = some c) ∧
      ∃ prod, s.repo.products.get p = some prod ∧ q.toInt > prod.Quantity.toInt) ∨
    (r = none ∧ ∃ c prod a, s.repo.customers.get e = some c ∧
      s.repo.products.get p = some prod ∧ q.toInt ≤ prod.Quantity.toInt ∧ c.Cart = some a ∧
      s1 = ⟨⟨s.repo.products.set p { prod with Quantity := prod.Quantity.sub q },
              s.repo.customers⟩,
             Function.update s.heap a ((s.heap a).set p q)⟩) := by
  cases hc : s.repo.customers.get e with
  | none =>
    simp only [AddToCart, hc, Option.some.injEq, Prod.mk.injEq] at h
    exact Or.inl ⟨h.1.symm, h.2.symm, rfl⟩
  | some c =>
    cases hp : s.repo.products.get p with
    | none =>
      simp only [AddToCart, hc, hp, Option.some.injEq, Prod.mk.injEq] at h
      exact Or.inr (Or.inl ⟨h.1.symm, h.2.symm, ⟨c, rfl⟩, rfl⟩)
    | some prod =>
      by_cases hq : q.toInt > prod.Quantity.toInt
      · simp only [AddToCart, hc, hp, hq, if_true, Option.some.injEq, Prod.mk.injEq] at h
        exact Or.inr (Or.inr (Or.inl ⟨h.1.symm, h.2.symm, ⟨c, rfl⟩, prod, rfl, hq⟩))
      · cases ha : c.Cart with
        | none => simp [AddToCart, hc, hp, hq, ha] at h
        | some a =>
          rw [AddToCart_ok_eq s e p q c prod a hc hp (not_lt.mp hq) ha] at h
          simp only [Option.some.injEq, Prod.mk.injEq] at h
          exact Or.inr (Or.inr (Or.inr ⟨h.2.symm, c, prod, a, rfl, rfl, not_lt.mp hq, ha, h.1.symm⟩))

/-! ## Claims about `AddToCart` -/

/-- C1, as stated, fails in two ways.  With stock `maxInt` and quantity `-1` the call succeeds
but the subtraction wraps, so the new stock is `minInt`, not the old stock minus the quantity.
With a customer whose `Cart` is the nil map, a quantity that fits the stock makes the call
panic instead of returning. -/
theorem C1_counterexample :
    ((shopWith intMax custC emptyHeap).repo.customers.get "c" = some custC ∧
      (shopWith intMax custC emptyHeap).repo.products.get "Widget"
        = some ⟨"Widget", price999, intMax⟩ ∧
      intNeg1.toInt ≤ intMax.toInt ∧
      ¬ ∃ s1, AddToCart (shopWith intMax custC emptyHeap) "c" "Widget" intNeg1 = some (s1, none) ∧
          (s1.stock "Widget").map GoInt.toInt = some (intMax.toInt - intNeg1.toInt)) ∧
    ((shopWith int10 custNil emptyHeap).repo.customers.get "c" = some custNil ∧
      (shopWith int10 custNil emptyHeap).repo.products.get "Widget"
        = some ⟨"Widget", price999, int10⟩ ∧
      int4.toInt ≤ int10.toInt ∧
      AddToCart (shopWith int10 custNil emptyHeap) "c" "Widget" int4 = none) := by
  refine ⟨⟨rfl, rfl, by decide, ?_⟩, rfl, rfl, by decide, rfl⟩
  rintro ⟨s1, h1, h2⟩
  have h3 : AddToCart (shopWith intMax custC emptyHeap) "c" "Widget" intNeg1
      = some (⟨⟨GoMap.single "Widget" ⟨"Widget", price999, intMax.sub intNeg1⟩,
                GoMap.single "c" custC⟩,
               Function.update emptyHeap 0 (GoMap.single "Widget" intNeg1)⟩, none) := rfl
  rw [h3] at h1
  simp only [Option.some.injEq, Prod.mk.injEq, and_true] at h1
  subst h1
  revert h2
  decide

/-- C1 (amended): when customer `e` and product `p` exist, the `Cart` of `e` is a map object
(not nil), `q ≤ stock` and `stock - q` does not exceed the largest `int`, then
`AddToCart(e, p, q)` returns no error and the stock of `p` afterwards is the stock before
minus exactly `q`. -/
theorem AddToCart_within_stock (s : Store) (e p : String) (q : GoInt) (c : Customer)
    (prod : Product) (a : Nat)
    (hc : s.repo.customers.get e = some c) (hp : s.repo.products.get p = some prod)
    (ha : c.Cart = some a) (hq : q.toInt ≤ prod.Quantity.toInt)
    (hov : prod.Quantity.toInt - q.toInt ≤ maxInt) :
    ∃ s1, AddToCart s e p q = some (s1, none) ∧
      (s1.stock p).map GoInt.toInt = some (prod.Quantity.toInt - q.toInt) := by
  refine ⟨_, AddToCart_ok_eq s e p q c prod a hc hp hq ha, ?_⟩
  have hlo : minInt ≤ prod.Quantity.toInt - q.toInt := by
    have : minInt ≤ 0 := by decide
    omega
  simp [Store.stock, GoMap.get_set_self, GoInt.sub, GoInt.ofInt,
    wrapInt_of_inRange _ hlo hov]

/-- The example of the specification: Widget with stock 10, quantity 4, stock becomes 6. -/
theorem AddToCart_within_stock_witness :
    ∃ s1, AddToCart (shopWith int10 custC emptyHeap) "c" "Widget" int4 = some (s1, none) ∧
      (s1.stock "Widget").map GoInt.toInt = some (10 - 4) :=
  AddToCart_within_stock (shopWith int10 custC emptyHeap) "c" "Widget" int4 custC
    ⟨"Widget", price999, int10⟩ 0 rfl rfl rfl (by decide) (by decide)

/-- C2: when customer `e` and product `p` exist and `q` exceeds the stock of `p`,
`AddToCart(e, p, q)` returns `ErrNotEnoughQuantity` and the stock of `p` is what it was. -/
theorem AddToCart_exceeds_stock (s : Store) (e p : String) (q : GoInt) (c : Customer)
    (prod : Product)
    (hc : s.repo.customers.get e = some c) (hp : s.repo.products.get p = some prod)
    (hq : q.toInt > prod.Quantity.toInt) :
    ∃ s1, AddToCart s e p q = some (s1, some Error.ErrNotEnoughQuantity) ∧
      s1.stock p = some prod.Quantity := by
  refine ⟨s, ?_, ?_⟩
  · simp only [AddToCart, hc, hp, hq, if_true]
  · simp [Store.stock, hp]

/-- The example of the specification: stock 6, quantity 20, error, stock remains 6. -/
theorem AddToCart_exceeds_stock_witness :
    ∃ s1, AddToCart (shopWith int6 custC emptyHeap) "c" "Widget" int20
        = some (s1, some Error.ErrNotEnoughQuantity) ∧
      s1.stock "Widget" = some int6 :=
  AddToCart_exceeds_stock (shopWith int6 custC emptyHeap) "c" "Widget" int20 custC
    ⟨"Widget", price999, int6⟩ rfl rfl (by decide)

/-- C3: after every successful `AddToCart(e, p, q)` the cart of customer `e` maps `p` to
exactly `q`, whatever it held for `p` before. -/
theorem AddToCart_sets_cart_entry (s s1 : Store) (e p : String) (q : GoInt)
    (h : AddToCart s e p q = some (s1, none)) :
    ∃ cart, s1.cartOf e = some cart ∧ cart.get p = some q := by
  rcases AddToCart_cases s s1 e p q none h with h1 | h1 | h1 | h1
  · exact absurd h1.2.1 (by simp)
  · exact absurd h1.2.1 (by simp)
  · exact absurd h1.2.1 (by simp)
  · obtain ⟨-, c, prod, a, hc, -, -, ha, rfl⟩ := h1
    refine ⟨(s.heap a).set p q, ?_, GoMap.get_set_self _ _ _⟩
    simp [Store.cartOf, Store.cart, hc, ha]

/-- A cart that held 3 Widgets holds 4, not 7, after `AddToCart(c, Widget, 4)`. -/
theorem AddToCart_sets_cart_entry_witness :
    (shopWith int10 custC heapWidget3).cartOf "c" = some (GoMap.single "Widget" int3) ∧
    ∃ cart, shopAfter4.cartOf "c" = some cart ∧ cart.get "Widget" = some int4 :=
  ⟨rfl, AddToCart_sets_cart_entry (shopWith int10 custC heapWidget3) shopAfter4 "c" "Widget"
    int4 rfl⟩

/-- C4: whenever `AddToCart` returns an error, the store after the call is the store before
it: products, customers and carts alike. -/
theorem AddToCart_error_keeps_store (s s1 : Store) (e p : String) (q : GoInt) (err : Error)
    (h : AddToCart s e p q = some (s1, some err)) : s1 = s := by
  rcases AddToCart_cases s s1 e p q (some err) h with h1 | h1 | h1 | h1
  · exact h1.1
  · exact h1.1
  · exact h1.1
  · exact absurd h1.1 (by simp)

/-- An over-large request returns its error with the store untouched. -/
theorem AddToCart_error_keeps_store_witness :
    AddToCart (shopWith int6 custC emptyHeap) "c" "Widget" int20
        = some (shopWith int6 custC emptyHeap, some Error.ErrNotEnoughQuantity) ∧
      shopWith int6 custC emptyHeap = shopWith int6 custC emptyHeap :=
  ⟨rfl, AddToCart_error_keeps_store (shopWith int6 custC emptyHeap)
    (shopWith int6 custC emptyHeap) "c" "Widget" int20 Error.ErrNotEnoughQuantity rfl⟩

/-! ## The stock never goes below zero -/

theorem step_keeps_NonNegStock (s s1 : Store) (op : Op) (h0 : NonNegStock s)
    (hw : op.noWrap s) (h : step s op = some s1) : NonNegStock s1 := by
  cases op with
  | viewProducts => simp only [step, ViewProducts, Option.some.injEq] at h; exact h ▸ h0
  | viewProductDetails n =>
    have h2 : (ViewProductDetails s n).1 = s := by
      unfold ViewProductDetails; split <;> rfl
    simp only [step, h2, Option.some.injEq] at h; exact h ▸ h0
  | viewCart e =>
    have h2 : (ViewCart s e).1 = s := by
      unfold ViewCart; split <;> rfl
    simp only [step, h2, Option.some.injEq] at h; exact h ▸ h0
  | addToCart e p q =>
    cases hA : AddToCart s e p q with
    | none => simp [step, hA] at h
    | some res =>
      obtain ⟨s2, r⟩ := res
      simp only [step, hA, Option.map_some', Option.some.injEq] at h
      subst h
      rcases AddToCart_cases s s2 e p q r hA with h1 | h1 | h1 | h1
      · exact h1.1 ▸ h0
      · exact h1.1 ▸ h0
      · exact h1.1 ▸ h0
      · obtain ⟨-, c, prod, a, -, hp, hq, -, rfl⟩ := h1
        intro kv hkv
        rcases mem_setEntries _ _ _ kv hkv with h2 | h2
        · have hov : prod.Quantity.toInt - q.toInt ≤ maxInt := by
            simpa only [Op.noWrap, hp] using hw
          have hlo : minInt ≤ prod.Quantity.toInt - q.toInt := by
            have : minInt ≤ 0 := by decide
            omega
          subst h2
          simp only [GoInt.sub, GoInt.ofInt, wrapInt_of_inRange _ hlo hov]
          omega
        · exact h0 kv h2

theorem noWrap_of_quantityNonNeg (s : Store) (op : Op) (h : op.quantityNonNeg) :
    op.noWrap s := by
  cases op with
  | addToCart e p q =>
    simp only [Op.noWrap]
    split
    · trivial
    · rename_i prod _
      have h1 := prod.Quantity.hi
      have h2 : 0 ≤ q.toInt := h
      omega
  | viewProducts => trivial
  | viewProductDetails n => trivial
  | viewCart e => trivial

theorem NoWrap_of_quantityNonNeg (ops : List Op) (h : ∀ op ∈ ops, op.quantityNonNeg) :
    ∀ s, NoWrap s ops := by
  induction ops with
  | nil => intro s; trivial
  | cons op ops ih =>
    intro s
    refine ⟨noWrap_of_quantityNonNeg s op (h op (List.mem_cons_self _ _)), ?_⟩
    cases step s op with
    | none => trivial
    | some s1 => exact ih (fun o ho => h o (List.mem_cons_of_mem _ ho)) s1

/-- C5, as stated, fails: in a store whose only product has stock `maxInt`,
`AddToCart(c, Widget, -1)` succeeds and leaves the stock at `minInt`, below zero. -/
theorem C5_counterexample :
    NonNegStock (shopWith intMax custC emptyHeap) ∧
    ¬ NonNegStock (run (shopWith intMax custC emptyHeap) [Op.addToCart "c" "Widget" intNeg1]) := by
  refine ⟨by decide, ?_⟩
  have h3 : run (shopWith intMax custC emptyHeap) [Op.addToCart "c" "Widget" intNeg1]
      = ⟨⟨GoMap.single "Widget" ⟨"Widget", price999, intMax.sub intNeg1⟩,
           GoMap.single "c" custC⟩,
          Function.update emptyHeap 0 (GoMap.single "Widget" intNeg1)⟩ := rfl
  rw [h3]
  decide

/-- C5 (amended): starting from a store in which every quantity is at least zero, after any
finite sequence of `ViewProducts`, `ViewProductDetails`, `AddToCart` and `ViewCart` calls in
which no `AddToCart` subtraction leaves the `int` range (stock minus quantity at most
`maxInt`), every quantity is at least zero; a sequence whose `AddToCart` quantities are all
at least zero is of that kind. -/
theorem run_keeps_NonNegStock (s : Store) (ops : List Op) (h0 : NonNegStock s)
    (hw : NoWrap s ops ∨ ∀ op ∈ ops, op.quantityNonNeg) : NonNegStock (run s ops) := by
  have hw2 : NoWrap s ops := hw.elim id (fun h => NoWrap_of_quantityNonNeg ops h s)
  clear hw
  induction ops generalizing s with
  | nil => exact h0
  | cons op ops ih =>
    simp only [run]
    cases h : step s op with
    | none => exact h0
    | some s1 =>
      have h2 := hw2.2
      simp only [h] at h2
      exact ih s1 (step_keeps_NonNegStock s s1 op h0 hw2.1 h) h2

/-- A run that gives back one Widget (quantity -1), reserves 4, asks for 20 more in vain
and reads the store keeps the stock at or above zero. -/
theorem run_keeps_NonNegStock_witness :
    NonNegStock (shopWith int10 custC emptyHeap) ∧
    NoWrap (shopWith int10 custC emptyHeap)
      [Op.addToCart "c" "Widget" intNeg1, Op.addToCart "c" "Widget" int4,
       Op.addToCart "c" "Widget" int20, Op.viewCart "c", Op.viewProducts,
       Op.viewProductDetails "Widget"] ∧
    NonNegStock (run (shopWith int10 custC emptyHeap)
      [Op.addToCart "c" "Widget" intNeg1, Op.addToCart "c" "Widget" int4,
       Op.addToCart "c" "Widget" int20, Op.viewCart "c", Op.viewProducts,
       Op.viewProductDetails "Widget"]) :=
  ⟨by decide, by decide,
   run_keeps_NonNegStock (shopWith int10 custC emptyHeap) _ (by decide) (Or.inl (by decide))⟩

/-! ## Unknown customers and products -/

/-- C6: when no customer is stored under `e`, `AddToCart(e, p, q)` fails with
`ErrCustomerNotFound` for every `p` and `q`, and so does `ViewCart(e)`; both leave the store
as it was. -/
theorem unknown_customer_fails (s : Store) (e p : String) (q : GoInt)
    (h : s.repo.customers.get e = none) :
    AddToCart s e p q = some (s, some Error.ErrCustomerNotFound) ∧
    ViewCart s e = (s, [], some Error.ErrCustomerNotFound) := by
  constructor
  · simp only [AddToCart, h]
  · simp only [ViewCart, h]

/-- In the store of `New()` no customer is known, whatever the arguments. -/
theorem unknown_customer_fails_witness :
    (New emptyHeap).repo.customers.get "c" = none ∧
    AddToCart (New emptyHeap) "c" "Widget" int4
      = some (New emptyHeap, some Error.ErrCustomerNotFound) ∧
    ViewCart (New emptyHeap) "c" = (New emptyHeap, [], some Error.ErrCustomerNotFound) :=
  ⟨rfl, unknown_customer_fails (New emptyHeap) "c" "Widget" int4 rfl⟩

/-- C7, as stated, fails: in the store of `New()` neither product `Widget` nor customer `c`
exists, and `AddToCart(c, Widget, 4)` returns `ErrCustomerNotFound`, not
`ErrProductNotFound`. -/
theorem C7_counterexample :
    (New emptyHeap).repo.products.get "Widget" = none ∧
    AddToCart (New emptyHeap) "c" "Widget" int4
      = some (New emptyHeap, some Error.ErrCustomerNotFound) ∧
    ¬ ∃ s1, AddToCart (New emptyHeap) "c" "Widget" int4
      = some (s1, some Error.ErrProductNotFound) := by
  refine ⟨rfl, rfl, ?_⟩
  rintro ⟨s1, h⟩
  have h2 : AddToCart (New emptyHeap) "c" "Widget" int4
      = some (New emptyHeap, some Error.ErrCustomerNotFound) := rfl
  rw [h2] at h
  simp at h

/-- C7 (amended): when customer `e` exists and no product is stored under `p`,
`AddToCart(e, p, q)` fails with `ErrProductNotFound`, whatever `q` is, and leaves the store as
it was. -/
theorem unknown_product_fails (s : Store) (e p : String) (q : GoInt) (c : Customer)
    (hc : s.repo.customers.get e = some c) (hp : s.repo.products.get p = none) :
    AddToCart s e p q = some (s, some Error.ErrProductNotFound) := by
  simp only [AddToCart, hc, hp]

/-- A known customer asking for a product of an empty catalog. -/
theorem unknown_product_fails_witness :
    shopNoProduct.repo.customers.get "c" = some custC ∧
    shopNoProduct.repo.products.get "Widget" = none ∧
    AddToCart shopNoProduct "c" "Widget" int4
      = some (shopNoProduct, some Error.ErrProductNotFound) :=
  ⟨rfl, rfl, unknown_product_fails shopNoProduct "c" "Widget" int4 custC rfl rfl⟩

/-! ## Listing a cart -/

theorem entries_nodup {V : Type} (m : GoMap V) : m.entries.Nodup :=
  List.Nodup.of_map Prod.fst m.nodupKeys

theorem orderLine_injective :
    Function.Injective (fun kv : String × GoInt => Order.mk kv.1 kv.2) := by
  rintro ⟨k1, v1⟩ ⟨k2, v2⟩ h
  simp only [Order.mk.injEq] at h
  exact Prod.ext h.1 h.2

/-- C8: when customer `e` has an empty cart and product `p` has stock at least `q`, then after
a successful `AddToCart(e, p, q)` the call `ViewCart(e)` returns no error and the single order
line `(p, q)`; and the `AddToCart` call does succeed when the `Cart` is a map object. -/
theorem ViewCart_after_AddToCart (s : Store) (e p : String) (q : GoInt) (c : Customer)
    (prod : Product)
    (hc : s.repo.customers.get e = some c) (hempty : (s.cart c).len = 0)
    (hp : s.repo.products.get p = some prod) (hq : q.toInt ≤ prod.Quantity.toInt) :
    (c.Cart ≠ none → ∃ s1, AddToCart s e p q = some (s1, none)) ∧
    ∀ s1, AddToCart s e p q = some (s1, none) →
      ViewCart s1 e = (s1, [Order.mk p q], none) := by
  constructor
  · intro hne
    cases ha : c.Cart with
    | none => exact absurd ha hne
    | some a => exact ⟨_, AddToCart_ok_eq s e p q c prod a hc hp hq ha⟩
  · intro s1 h
    rcases AddToCart_cases s s1 e p q none h with h1 | h1 | h1 | h1
    · exact absurd h1.2.1 (by simp)
    · exact absurd h1.2.1 (by simp)
    · exact absurd h1.2.1 (by simp)
    · obtain ⟨-, c2, prod2, a, hc2, -, -, ha, rfl⟩ := h1
      rw [hc] at hc2
      cases hc2
      have he : (s.heap a).entries = [] := by
        have := hempty
        simp only [Store.cart, ha, GoMap.len] at this
        exact List.length_eq_zero.mp this
      simp [ViewCart, hc, Store.cart, ha, GoMap.set, he, setEntries]

/-- The example of the specification: `ViewCart` right after `AddToCart(c, "Widget", 3)`. -/
theorem ViewCart_after_AddToCart_witness :
    (∃ s1, AddToCart (shopWith int10 custC emptyHeap) "c" "Widget" int3 = some (s1, none)) ∧
    ∀ s1, AddToCart (shopWith int10 custC emptyHeap) "c" "Widget" int3 = some (s1, none) →
      ViewCart s1 "c" = (s1, [Order.mk "Widget" int3], none) :=
  ⟨(ViewCart_after_AddToCart (shopWith int10 custC emptyHeap) "c" "Widget" int3 custC
      ⟨"Widget", price999, int10⟩ rfl rfl rfl (by decide)).1 (by decide),
   (ViewCart_after_AddToCart (shopWith int10 custC emptyHeap) "c" "Widget" int3 custC
      ⟨"Widget", price999, int10⟩ rfl rfl rfl (by decide)).2⟩

/-- C9: for an existing customer `e`, `ViewCart(e)` returns no error and leaves the store as
it was; the order lines are as many as the cart has entries, every cart entry occurs among
them exactly once, and every line is a cart entry. -/
theorem ViewCart_reflects_cart (s : Store) (e : String) (c : Customer)
    (hc : s.repo.customers.get e = some c) :
    ∃ lines, ViewCart s e = (s, lines, none) ∧
      lines.length = (s.cart c).len ∧
      (∀ k v, (s.cart c).get k = some v → lines.count (Order.mk k v) = 1) ∧
      (∀ o ∈ lines, (s.cart c).get o.Product = some o.Quantity) := by
  refine ⟨(s.cart c).entries.map (fun kv => Order.mk kv.1 kv.2), ?_, ?_, ?_, ?_⟩
  · simp only [ViewCart, hc]
  · simp [GoMap.len]
  · intro k v hkv
    apply List.count_eq_one_of_mem
    · exact (entries_nodup (s.cart c)).map orderLine_injective
    · exact List.mem_map.mpr ⟨(k, v), mem_of_lookup _ k v hkv, rfl⟩
  · intro o ho
    obtain ⟨kv, hkv, rfl⟩ := List.mem_map.mp ho
    exact lookup_of_mem _ kv.1 kv.2 (s.cart c).nodupKeys hkv

/-- A cart with the one entry Widget ↦ 3 is listed as the one line (Widget, 3). -/
theorem ViewCart_reflects_cart_witness :
    (shopWith int10 custC heapWidget3).repo.customers.get "c" = some custC ∧
    ∃ lines, ViewCart (shopWith int10 custC heapWidget3) "c"
        = (shopWith int10 custC heapWidget3, lines, none) ∧
      lines.length = ((shopWith int10 custC heapWidget3).cart custC).len ∧
      (∀ k v, ((shopWith int10 custC heapWidget3).cart custC).get k = some v →
        lines.count (Order.mk k v) = 1) ∧
      (∀ o ∈ lines, ((shopWith int10 custC heapWidget3).cart custC).get o.Product
        = some o.Quantity) :=
  ⟨rfl, ViewCart_reflects_cart (shopWith int10 custC heapWidget3) "c" custC rfl⟩

/-! ## Looking up a product -/

/-- C10: `ViewProductDetails(n)` returns the product stored under `n` and no error when there
is one, the zero `Product` and `ErrProductNotFound` when there is none, and in both cases
the store it was called on. -/
theorem ViewProductDetails_spec (s : Store) (n : String) :
    (∀ product, s.repo.products.get n = some product →
      ViewProductDetails s n = (s, product, none)) ∧
    (s.repo.products.get n = none →
      ViewProductDetails s n = (s, Product.zero, some Error.ErrProductNotFound)) ∧
    (ViewProductDetails s n).1 = s := by
  refine ⟨fun product h => ?_, fun h => ?_, ?_⟩
  · simp only [ViewProductDetails, h]
  · simp only [ViewProductDetails, h]
  · unfold ViewProductDetails; split <;> rfl

/-- Looking up `Widget` finds it; looking up `Gadget` yields the zero product and the error. -/
theorem ViewProductDetails_spec_witness :
    ViewProductDetails (shopWith int10 custC emptyHeap) "Widget"
      = (shopWith int10 custC emptyHeap, ⟨"Widget", price999, int10⟩, none) ∧
    ViewProductDetails (shopWith int10 custC emptyHeap) "Gadget"
      = (shopWith int10 custC emptyHeap, ⟨"", ⟨0⟩, ⟨0, by decide, by decide⟩⟩,
          some Error.ErrProductNotFound) :=
  ⟨(ViewProductDetails_spec (shopWith int10 custC emptyHeap) "Widget").1 _ rfl,
   (ViewProductDetails_spec (shopWith int10 custC emptyHeap) "Gadget").2.1 rfl⟩

/-! ## Listing the catalog -/

/-- C11: `ViewProducts()` returns the stored products, each once per catalog entry, and leaves
the store as it was: the sequence is as long as the catalog, a product is in it exactly when
it is stored under some key, it occurs as often as there are keys storing it, hence exactly
once when every product is stored under its own name, and the sequence is empty for an empty
catalog. -/
theorem ViewProducts_lists_catalog (s : Store) :
    (ViewProducts s).1 = s ∧
    (ViewProducts s).2.length = s.repo.products.len ∧
    (∀ product, product ∈ (ViewProducts s).2 ↔ ∃ k, s.repo.products.get k = some product) ∧
    (∀ product, (ViewProducts s).2.count product
      = s.repo.products.keys.countP (fun k => decide (s.repo.products.get k = some product))) ∧
    (KeyedByName s → ∀ k product, s.repo.products.get k = some product →
      (ViewProducts s).2.count product = 1) ∧
    (s.repo.products.len = 0 → (ViewProducts s).2 = []) := by
  have hmem : ∀ product, product ∈ (ViewProducts s).2 ↔
      ∃ k, s.repo.products.get k = some product := by
    intro product
    constructor
    · intro h
      obtain ⟨kv, hkv, rfl⟩ := List.mem_map.mp h
      exact ⟨kv.1, lookup_of_mem _ kv.1 kv.2 s.repo.products.nodupKeys hkv⟩
    · rintro ⟨k, hk⟩
      exact List.mem_map.mpr ⟨(k, product), mem_of_lookup _ k product hk, rfl⟩
  refine ⟨rfl, by simp [ViewProducts, GoMap.len], hmem, ?_, ?_, ?_⟩
  · intro product
    simp only [ViewProducts, GoMap.keys, List.count_eq_countP, List.countP_map]
    apply List.countP_congr
    intro kv hkv
    have h1 : s.repo.products.get kv.1 = some kv.2 :=
      lookup_of_mem _ kv.1 kv.2 s.repo.products.nodupKeys hkv
    simp [h1]
  · intro hname k product hk
    apply List.count_eq_one_of_mem
    · apply List.Nodup.map_on _ (entries_nodup s.repo.products)
      intro x hx y hy hxy
      have h1 := hname x hx
      have h2 := hname y hy
      exact Prod.ext (by rw [← h1, ← h2, hxy]) hxy
    · exact (hmem product).mpr ⟨k, hk⟩
  · intro h
    have h2 : s.repo.products.entries = [] := List.length_eq_zero.mp h
    simp [ViewProducts, h2]

/-- The catalog of `shopAB` is listed with the product `A` in it exactly once. -/
theorem ViewProducts_lists_catalog_witness :
    KeyedByName shopAB ∧ shopAB.repo.products.get "A" = some ⟨"A", price999, int3⟩ ∧
    (ViewProducts shopAB).2.count ⟨"A", price999, int3⟩ = 1 :=
  ⟨by decide, rfl,
   (ViewProducts_lists_catalog shopAB).2.2.2.2.1 (by decide) "A" ⟨"A", price999, int3⟩ rfl⟩

/-! ## What a call can do to the store -/

theorem setEntries_keys_of_lookup {V : Type} (k : String) (v v0 : V) (l : List (String × V))
    (h : l.lookup k = some v0) : (setEntries k v l).map Prod.fst = l.map Prod.fst := by
  induction l with
  | nil => simp [List.lookup] at h
  | cons hd tl ih =>
    obtain ⟨k1, v1⟩ := hd
    by_cases hk : k1 = k
    · simp [setEntries, hk]
    · have hk2 : (k == k1) = false := by
        simpa using fun e => hk e.symm
      simp only [List.lookup, hk2] at h
      simp [setEntries, hk, ih h]

theorem setEntries_length_le {V : Type} (k : String) (v : V) (l : List (String × V)) :
    l.length ≤ (setEntries k v l).length := by
  induction l with
  | nil => simp [setEntries]
  | cons hd tl ih =>
    obtain ⟨k1, v1⟩ := hd
    by_cases hk : k1 = k
    · simp [setEntries, hk]
    · simpa [setEntries, hk] using ih

/-- A call that returns either leaves the store as it was or is a successful `AddToCart`,
which rewrites one product and one cart map object. -/
theorem step_cases (s s1 : Store) (op : Op) (h : step s op = some s1) :
    s1 = s ∨ ∃ e p q c prod a, op = Op.addToCart e p q ∧
      s.repo.customers.get e = some c ∧ s.repo.products.get p = some prod ∧
      q.toInt ≤ prod.Quantity.toInt ∧ c.Cart = some a ∧
      s1 = ⟨⟨s.repo.products.set p { prod with Quantity := prod.Quantity.sub q },
              s.repo.customers⟩,
             Function.update s.heap a ((s.heap a).set p q)⟩ := by
  cases op with
  | viewProducts => simp only [step, ViewProducts, Option.some.injEq] at h; exact Or.inl h.symm
  | viewProductDetails n =>
    have h2 : (ViewProductDetails s n).1 = s := by
      unfold ViewProductDetails; split <;> rfl
    simp only [step, h2, Option.some.injEq] at h; exact Or.inl h.symm
  | viewCart e =>
    have h2 : (ViewCart s e).1 = s := by
      unfold ViewCart; split <;> rfl
    simp only [step, h2, Option.some.injEq] at h; exact Or.inl h.symm
  | addToCart e p q =>
    cases hA : AddToCart s e p q with
    | none => simp [step, hA] at h
    | some res =>
      obtain ⟨s2, r⟩ := res
      simp only [step, hA, Option.map_some', Option.some.injEq] at h
      subst h
      rcases AddToCart_cases s s2 e p q r hA with h1 | h1 | h1 | h1
      · exact Or.inl h1.1
      · exact Or.inl h1.1
      · exact Or.inl h1.1
      · obtain ⟨-, c, prod, a, hc, hp, hq, ha, hs⟩ := h1
        exact Or.inr ⟨e, p, q, c, prod, a, rfl, hc, hp, hq, ha, hs⟩

/-- A property that every returning call of the sequence preserves holds after the run. -/
theorem run_invariant (P : Store → Prop) (ops : List Op)
    (hstep : ∀ op ∈ ops, ∀ s s1, P s → step s op = some s1 → P s1) :
    ∀ s, P s → P (run s ops) := by
  induction ops with
  | nil => intro s h0; exact h0
  | cons op ops ih =>
    intro s h0
    simp only [run]
    cases h : step s op with
    | none => exact h0
    | some s1 =>
      exact ih (fun o ho => hstep o (List.mem_cons_of_mem _ ho)) s1
        (hstep op (List.mem_cons_self _ _) s s1 h0 h)

theorem step_keeps_keys (s s1 : Store) (op : Op) (h : step s op = some s1) :
    s1.repo.products.keys = s.repo.products.keys ∧ s1.repo.customers = s.repo.customers := by
  rcases step_cases s s1 op h with h1 | ⟨e, p, q, c, prod, a, -, -, hp, -, -, rfl⟩
  · subst h1; exact ⟨rfl, rfl⟩
  · exact ⟨setEntries_keys_of_lookup p _ prod _ hp, rfl⟩

theorem step_keeps_CartKeysInCatalog (s s1 : Store) (op : Op) (h0 : CartKeysInCatalog s)
    (h : step s op = some s1) : CartKeysInCatalog s1 := by
  rcases step_cases s s1 op h with h1 | ⟨e, p, q, c, prod, a, -, -, hp, -, -, rfl⟩
  · subst h1; exact h0
  · intro kv hkv k hk
    have hkeys : (s.repo.products.set p { prod with Quantity := prod.Quantity.sub q }).keys
        = s.repo.products.keys := setEntries_keys_of_lookup p _ prod _ hp
    show k ∈ (s.repo.products.set p { prod with Quantity := prod.Quantity.sub q }).keys
    rw [hkeys]
    have hold := h0 kv hkv
    cases hcart : kv.2.Cart with
    | none =>
      simp only [Store.cart, hcart] at hk hold
      exact hold k hk
    | some b =>
      simp only [Store.cart, hcart] at hk hold
      by_cases hb : b = a
      · subst hb
        simp only [Function.update_same, GoMap.keys, GoMap.set] at hk
        rcases (setEntries_keys_mem p q _ k).mp hk with h2 | h2
        · subst h2
          exact List.mem_map.mpr ⟨(k, prod), mem_of_lookup _ k prod hp, rfl⟩
        · exact hold k h2
      · simp only [Function.update_noteq hb] at hk
        exact hold k hk

/-- C13: when every key of every customer's cart is the key of a product in the catalog, the
same is true after any sequence of calls, successful or failed; and the catalog keeps exactly
its keys, so no call removes a product. -/
theorem run_keeps_CartKeysInCatalog (s : Store) (ops : List Op) (h0 : CartKeysInCatalog s) :
    CartKeysInCatalog (run s ops) ∧ (run s ops).repo.products.keys = s.repo.products.keys := by
  constructor
  · exact run_invariant CartKeysInCatalog ops
      (fun op _ t t1 ht hstep => step_keeps_CartKeysInCatalog t t1 op ht hstep) s h0
  · exact run_invariant (fun t => t.repo.products.keys = s.repo.products.keys) ops
      (fun op _ t t1 ht hstep => (step_keeps_keys t t1 op hstep).1.trans ht) s rfl

/-- In `shopAB`, a successful reservation of `B`, a failed one of an unknown product and a
failed one of too many `A` keep the cart keys inside the catalog `A`, `B`. -/
theorem run_keeps_CartKeysInCatalog_witness :
    CartKeysInCatalog shopAB ∧
    (CartKeysInCatalog (run shopAB [Op.addToCart "c" "B" int3, Op.addToCart "c" "Z" int1,
      Op.addToCart "c" "A" int20, Op.viewCart "c"]) ∧
     (run shopAB [Op.addToCart "c" "B" int3, Op.addToCart "c" "Z" int1,
      Op.addToCart "c" "A" int20, Op.viewCart "c"]).repo.products.keys
       = shopAB.repo.products.keys) :=
  ⟨by decide, run_keeps_CartKeysInCatalog shopAB _ (by decide)⟩

/-! ## No call empties a cart -/

theorem step_keeps_cart_size (s s1 : Store) (op : Op) (c : Customer)
    (h : step s op = some s1) : (s.cart c).len ≤ (s1.cart c).len := by
  rcases step_cases s s1 op h with h1 | ⟨e, p, q, c2, prod, a, -, -, -, -, -, rfl⟩
  · subst h1; exact le_rfl
  · cases hcart : c.Cart with
    | none => simp [Store.cart, hcart]
    | some b =>
      simp only [Store.cart, hcart]
      by_cases hb : b = a
      · subst hb
        simp only [Function.update_same, GoMap.len, GoMap.set]
        exact setEntries_length_le _ _ _
      · simp only [Function.update_noteq hb]
        exact le_rfl

/-- C14: the repository has no `Checkout`.  Under the four methods it does have, a customer
stays in the store with the same record and the cart never loses an entry, so no sequence of
calls clears a cart such as `{A: 2, B: 1}`. -/
theorem no_call_clears_cart (s : Store) (ops : List Op) (e : String) (c : Customer)
    (hc : s.repo.customers.get e = some c) :
    (run s ops).repo.customers.get e = some c ∧ (s.cart c).len ≤ ((run s ops).cart c).len := by
  have h := run_invariant
    (fun t => t.repo.customers = s.repo.customers ∧ (s.cart c).len ≤ (t.cart c).len) ops
    (fun op _ t t1 ht hstep =>
      ⟨(step_keeps_keys t t1 op hstep).2.trans ht.1,
       le_trans ht.2 (step_keeps_cart_size t t1 op c hstep)⟩) s ⟨rfl, le_rfl⟩
  exact ⟨by rw [h.1]; exact hc, h.2⟩

/-- The cart `{A: 2, B: 1}` of `shopAB` still has its two entries after reading the cart and
reserving again. -/
theorem no_call_clears_cart_witness :
    (shopAB.cart custC).entries = [("A", int2), ("B", int1)] ∧
    ((run shopAB [Op.viewCart "c", Op.addToCart "c" "A" int1, Op.viewProducts]).repo.customers.get
        "c" = some custC ∧
      (shopAB.cart custC).len ≤ ((run shopAB
        [Op.viewCart "c", Op.addToCart "c" "A" int1, Op.viewProducts]).cart custC).len) :=
  ⟨rfl, no_call_clears_cart shopAB _ "c" custC rfl⟩

/-! ## Two reservations in a row -/

/-- C16, as stated, fails in two ways.  With stock `maxInt`, `q1 = -1` and `q2 = 0` the first
call wraps the stock to `minInt` and the second is refused.  With a customer whose `Cart` is
the nil map the first call panics. -/
theorem C16_counterexample :
    ((shopWith intMax custC emptyHeap).repo.customers.get "c" = some custC ∧
      (shopWith intMax custC emptyHeap).stock "Widget" = some intMax ∧
      intNeg1.toInt ≤ intMax.toInt ∧ int0.toInt ≤ intMax.toInt - intNeg1.toInt ∧
      ∃ s1, AddToCart (shopWith intMax custC emptyHeap) "c" "Widget" intNeg1 = some (s1, none) ∧
        AddToCart s1 "c" "Widget" int0 = some (s1, some Error.ErrNotEnoughQuantity)) ∧
    ((shopWith int10 custNil emptyHeap).repo.customers.get "c" = some custNil ∧
      (shopWith int10 custNil emptyHeap).stock "Widget" = some int10 ∧
      int4.toInt ≤ int10.toInt ∧ int3.toInt ≤ int10.toInt - int4.toInt ∧
      AddToCart (shopWith int10 custNil emptyHeap) "c" "Widget" int4 = none) :=
  ⟨⟨rfl, rfl, by decide, by decide, _, rfl, rfl⟩, rfl, rfl, by decide, by decide, rfl⟩

/-- C16 (amended): when customer `e` exists with a `Cart` that is a map object, product `p`
has stock `s`, `q1 ≤ s`, `q2 ≤ s - q1`, and neither `s - q1` nor `s - q1 - q2` exceeds the
largest `int`, then `AddToCart(e, p, q1)` and `AddToCart(e, p, q2)` in a row both succeed,
the cart of `e` then holds `q2` for `p`, and the stock of `p` is `s - q1 - q2`. -/
theorem AddToCart_twice (s : Store) (e p : String) (q1 q2 : GoInt) (c : Customer)
    (prod : Product) (a : Nat)
    (hc : s.repo.customers.get e = some c) (hp : s.repo.products.get p = some prod)
    (ha : c.Cart = some a) (h1 : q1.toInt ≤ prod.Quantity.toInt)
    (h2 : q2.toInt ≤ prod.Quantity.toInt - q1.toInt)
    (hov1 : prod.Quantity.toInt - q1.toInt ≤ maxInt)
    (hov2 : prod.Quantity.toInt - q1.toInt - q2.toInt ≤ maxInt) :
    ∃ s1 s2, AddToCart s e p q1 = some (s1, none) ∧ AddToCart s1 e p q2 = some (s2, none) ∧
      (∃ cart, s2.cartOf e = some cart ∧ cart.get p = some q2) ∧
      (s2.stock p).map GoInt.toInt = some (prod.Quantity.toInt - q1.toInt - q2.toInt) := by
  have hmin : minInt ≤ 0 := by decide
  have hlo1 : minInt ≤ prod.Quantity.toInt - q1.toInt := by omega
  have hsub1 : (prod.Quantity.sub q1).toInt = prod.Quantity.toInt - q1.toInt := by
    simp only [GoInt.sub, GoInt.ofInt, wrapInt_of_inRange _ hlo1 hov1]
  have e1 := AddToCart_ok_eq s e p q1 c prod a hc hp h1 ha
  have hp1 : (s.repo.products.set p { prod with Quantity := prod.Quantity.sub q1 }).get p
      = some { prod with Quantity := prod.Quantity.sub q1 } := GoMap.get_set_self _ _ _
  have h2b : q2.toInt ≤ (prod.Quantity.sub q1).toInt := by rw [hsub1]; exact h2
  have e2 := AddToCart_ok_eq
    ⟨⟨s.repo.products.set p { prod with Quantity := prod.Quantity.sub q1 }, s.repo.customers⟩,
      Function.update s.heap a ((s.heap a).set p q1)⟩
    e p q2 c { prod with Quantity := prod.Quantity.sub q1 } a hc hp1 h2b ha
  have hlo2 : minInt ≤ prod.Quantity.toInt - q1.toInt - q2.toInt := by omega
  refine ⟨_, _, e1, e2, ?_, ?_⟩
  · refine ⟨((Function.update s.heap a ((s.heap a).set p q1)) a).set p q2, ?_,
      GoMap.get_set_self _ p q2⟩
    simp [Store.cartOf, Store.cart, hc, ha]
  · simp [Store.stock, GoMap.get_set_self, GoInt.sub, GoInt.ofInt,
      wrapInt_of_inRange _ hlo1 hov1, wrapInt_of_inRange _ hlo2 hov2]

/-- Ten Widgets, 4 reserved and then 3: the cart holds 3, the stock is 10 - 4 - 3. -/
theorem AddToCart_twice_witness :
    ∃ s1 s2, AddToCart (shopWith int10 custC emptyHeap) "c" "Widget" int4 = some (s1, none) ∧
      AddToCart s1 "c" "Widget" int3 = some (s2, none) ∧
      (∃ cart, s2.cartOf "c" = some cart ∧ cart.get "Widget" = some int3) ∧
      (s2.stock "Widget").map GoInt.toInt = some (10 - 4 - 3) :=
  AddToCart_twice (shopWith int10 custC emptyHeap) "c" "Widget" int4 int3 custC
    ⟨"Widget", price999, int10⟩ 0 rfl rfl rfl (by decide) (by decide) (by decide) (by decide)

/-! ## The order of validation -/

/-- C17, as stated, fails in its last line: customer `c` and product `Widget` exist and the
quantity 4 fits the stock 10, yet the call does not return "no error", because the `Cart` of
`c` is the nil map and the call panics. -/
theorem C17_counterexample :
    (shopWith int10 custNil emptyHeap).repo.customers.get "c" = some custNil ∧
    (shopWith int10 custNil emptyHeap).repo.products.get "Widget"
      = some ⟨"Widget", price999, int10⟩ ∧
    int4.toInt ≤ int10.toInt ∧
    ¬ ∃ s1, AddToCart (shopWith int10 custNil emptyHeap) "c" "Widget" int4 = some (s1, none) := by
  refine ⟨rfl, rfl, by decide, ?_⟩
  rintro ⟨s1, h⟩
  have h2 : AddToCart (shopWith int10 custNil emptyHeap) "c" "Widget" int4 = none := rfl
  rw [h2] at h
  exact absurd h (by simp)

/-- C17 (amended): the result of `AddToCart(e, p, q)` is fixed by the checks in the order
customer, product, stock: it returns `ErrCustomerNotFound` iff `e` is absent;
`ErrProductNotFound` iff `e` exists and `p` is absent; `ErrNotEnoughQuantity` iff both exist
and `q` exceeds the stock; no error iff both exist, `q` is at most the stock and the `Cart` of
`e` is a map object; and it panics iff both exist, `q` is at most the stock and the `Cart` of
`e` is the nil map. -/
theorem AddToCart_result_table (s : Store) (e p : String) (q : GoInt) :
    ((∃ s1, AddToCart s e p q = some (s1, some Error.ErrCustomerNotFound)) ↔
      s.repo.customers.get e = none) ∧
    ((∃ s1, AddToCart s e p q = some (s1, some Error.ErrProductNotFound)) ↔
      (∃ c, s.repo.customers.get e = some c) ∧ s.repo.products.get p = none) ∧
    ((∃ s1, AddToCart s e p q = some (s1, some Error.ErrNotEnoughQuantity)) ↔
      (∃ c, s.repo.customers.get e = some c) ∧
      ∃ prod, s.repo.products.get p = some prod ∧ q.toInt > prod.Quantity.toInt) ∧
    ((∃ s1, AddToCart s e p q = some (s1, none)) ↔
      ∃ c prod a, s.repo.customers.get e = some c ∧ s.repo.products.get p = some prod ∧
        q.toInt ≤ prod.Quantity.toInt ∧ c.Cart = some a) ∧
    (AddToCart s e p q = none ↔
      ∃ c prod, s.repo.customers.get e = some c ∧ s.repo.products.get p = some prod ∧
        q.toInt ≤ prod.Quantity.toInt ∧ c.Cart = none) := by
  refine ⟨⟨?_, ?_⟩, ⟨?_, ?_⟩, ⟨?_, ?_⟩, ⟨?_, ?_⟩, ⟨?_, ?_⟩⟩
  · rintro ⟨s1, h⟩
    rcases AddToCart_cases s s1 e p q _ h with h1 | h1 | h1 | h1
    · exact h1.2.2
    · exact absurd h1.2.1 (by simp)
    · exact absurd h1.2.1 (by simp)
    · exact absurd h1.1 (by simp)
  · intro h
    exact ⟨s, by simp only [AddToCart, h]⟩
  · rintro ⟨s1, h⟩
    rcases AddToCart_cases s s1 e p q _ h with h1 | h1 | h1 | h1
    · exact absurd h1.2.1 (by simp)
    · exact h1.2.2
    · exact absurd h1.2.1 (by simp)
    · exact absurd h1.1 (by simp)
  · rintro ⟨⟨c, hc⟩, hp⟩
    exact ⟨s, by simp only [AddToCart, hc, hp]⟩
  · rintro ⟨s1, h⟩
    rcases AddToCart_cases s s1 e p q _ h with h1 | h1 | h1 | h1
    · exact absurd h1.2.1 (by simp)
    · exact absurd h1.2.1 (by simp)
    · exact h1.2.2
    · exact absurd h1.1 (by simp)
  · rintro ⟨⟨c, hc⟩, prod, hp, hq⟩
    exact ⟨s, by simp only [AddToCart, hc, hp, hq, if_true]⟩
  · rintro ⟨s1, h⟩
    rcases AddToCart_cases s s1 e p q _ h with h1 | h1 | h1 | h1
    · exact absurd h1.2.1 (by simp)
    · exact absurd h1.2.1 (by simp)
    · exact absurd h1.2.1 (by simp)
    · obtain ⟨-, c, prod, a, hc, hp, hq, ha, -⟩ := h1
      exact ⟨c, prod, a, hc, hp, hq, ha⟩
  · rintro ⟨c, prod, a, hc, hp, hq, ha⟩
    exact ⟨_, AddToCart_ok_eq s e p q c prod a hc hp hq ha⟩
  · intro h
    cases hc : s.repo.customers.get e with
    | none => simp [AddToCart, hc] at h
    | some c =>
      cases hp : s.repo.products.get p with
      | none => simp [AddToCart, hc, hp] at h
      | some prod =>
        by_cases hq : q.toInt > prod.Quantity.toInt
        · simp [AddToCart, hc, hp, hq] at h
        · cases ha : c.Cart with
          | none => exact ⟨c, prod, rfl, rfl, not_lt.mp hq, ha⟩
          | some a =>
            rw [AddToCart_ok_eq s e p q c prod a hc hp (not_lt.mp hq) ha] at h
            exact absurd h (by simp)
  · rintro ⟨c, prod, hc, hp, hq, ha⟩
    have hq2 : ¬ (q.toInt > prod.Quantity.toInt) := not_lt.mpr hq
    simp only [AddToCart, hc, hp, hq2, if_false, ha]

/-! ## Quantities of zero and below -/

/-- C19, as stated, fails in two ways.  With stock 0 and quantity `minInt` the call succeeds
but the stock wraps to `minInt` instead of rising to `0 - minInt`.  With a customer whose
`Cart` is the nil map and quantity 0 the call panics. -/
theorem C19_counterexample :
    ((shopWith int0 custC emptyHeap).repo.customers.get "c" = some custC ∧
      (shopWith int0 custC emptyHeap).stock "Widget" = some int0 ∧
      0 ≤ int0.toInt ∧ intMin.toInt ≤ 0 ∧
      ∃ s1, AddToCart (shopWith int0 custC emptyHeap) "c" "Widget" intMin = some (s1, none) ∧
        s1.stock "Widget" = some intMin ∧ intMin.toInt ≠ int0.toInt - intMin.toInt) ∧
    ((shopWith int10 custNil emptyHeap).repo.customers.get "c" = some custNil ∧
      (shopWith int10 custNil emptyHeap).stock "Widget" = some int10 ∧
      0 ≤ int10.toInt ∧ int0.toInt ≤ 0 ∧
      AddToCart (shopWith int10 custNil emptyHeap) "c" "Widget" int0 = none) :=
  ⟨⟨rfl, rfl, by decide, by decide, _, rfl, by decide, by decide⟩,
   rfl, rfl, by decide, by decide, rfl⟩

/-- C19 (amended): when customer `e` exists with a `Cart` that is a map object, product `p`
has stock `s ≥ 0`, `q ≤ 0` and `s - q` does not exceed the largest `int`, then
`AddToCart(e, p, q)` returns no error, records `q` as the cart entry of `e` for `p`, and
sets the stock of `p` to `s - q`. -/
theorem AddToCart_nonpositive (s : Store) (e p : String) (q : GoInt) (c : Customer)
    (prod : Product) (a : Nat)
    (hc : s.repo.customers.get e = some c) (hp : s.repo.products.get p = some prod)
    (ha : c.Cart = some a) (hs : 0 ≤ prod.Quantity.toInt) (hq : q.toInt ≤ 0)
    (hov : prod.Quantity.toInt - q.toInt ≤ maxInt) :
    ∃ s1, AddToCart s e p q = some (s1, none) ∧
      (∃ cart, s1.cartOf e = some cart ∧ cart.get p = some q) ∧
      (s1.stock p).map GoInt.toInt = some (prod.Quantity.toInt - q.toInt) := by
  have hmin : minInt ≤ 0 := by decide
  have hlo : minInt ≤ prod.Quantity.toInt - q.toInt := by omega
  refine ⟨_, AddToCart_ok_eq s e p q c prod a hc hp (by omega) ha, ?_, ?_⟩
  · refine ⟨(s.heap a).set p q, ?_, GoMap.get_set_self _ p q⟩
    simp [Store.cartOf, Store.cart, hc, ha]
  · simp [Store.stock, GoMap.get_set_self, GoInt.sub, GoInt.ofInt,
      wrapInt_of_inRange _ hlo hov]

/-- Ten Widgets and quantity -1: no error, the cart records -1, the stock rises to 11. -/
theorem AddToCart_nonpositive_witness :
    ∃ s1, AddToCart (shopWith int10 custC emptyHeap) "c" "Widget" intNeg1 = some (s1, none) ∧
      (∃ cart, s1.cartOf "c" = some cart ∧ cart.get "Widget" = some intNeg1) ∧
      (s1.stock "Widget").map GoInt.toInt = some (10 - (-1)) :=
  AddToCart_nonpositive (shopWith int10 custC emptyHeap) "c" "Widget" intNeg1 custC
    ⟨"Widget", price999, int10⟩ 0 rfl rfl rfl (by decide) (by decide) (by decide)

/-! ## The store of `New()` -/

/-- C20: no call inserts a product or a customer.  Every store reached from `New()` by a
sequence of calls is the store of `New()`: both maps are empty, `ViewProducts` returns the
empty sequence, `ViewProductDetails` returns `ErrProductNotFound`, and `AddToCart` and
`ViewCart` return `ErrCustomerNotFound`. -/
theorem run_New_stays_empty (heap : Nat → GoMap GoInt) (ops : List Op) :
    run (New heap) ops = New heap ∧
    (run (New heap) ops).repo.products.entries = [] ∧
    (run (New heap) ops).repo.customers.entries = [] ∧
    (ViewProducts (run (New heap) ops)).2 = [] ∧
    (∀ n, ViewProductDetails (run (New heap) ops) n
      = (run (New heap) ops, Product.zero, some Error.ErrProductNotFound)) ∧
    (∀ e p q, AddToCart (run (New heap) ops) e p q
      = some (run (New heap) ops, some Error.ErrCustomerNotFound)) ∧
    (∀ e, ViewCart (run (New heap) ops) e
      = (run (New heap) ops, [], some Error.ErrCustomerNotFound)) := by
  have h : run (New heap) ops = New heap := by
    apply run_invariant (fun t => t = New heap) ops _ (New heap) rfl
    intro op _ t t1 ht hstep
    subst ht
    rcases step_cases _ t1 op hstep with h1 | ⟨e, p, q, c, prod, a, -, hc, -⟩
    · exact h1
    · exact absurd hc (by simp [New, GoMap.get, GoMap.empty, List.lookup])
  rw [h]
  exact ⟨rfl, rfl, rfl, rfl, fun _ => rfl, fun _ _ _ => rfl, fun _ => rfl⟩

/-! ## What a successful `AddToCart` leaves alone -/

/-- C18, as stated, fails: when customers `c` and `d` hold the same cart map object, a
successful `AddToCart(c, Widget, 4)` also gives the other customer `d` the cart entry
`Widget ↦ 4`, which `d` did not have before. -/
theorem C18_counterexample :
    ((shopShared int10).cartOf "d").map (fun cart => cart.get "Widget") = some none ∧
    ∃ s1, AddToCart (shopShared int10) "c" "Widget" int4 = some (s1, none) ∧
      (s1.cartOf "d").map (fun cart => cart.get "Widget") = some (some int4) :=
  ⟨by decide, _, rfl, by decide⟩

/-- C18 (amended): a successful `AddToCart(e, p, q)` keeps the name and price of `p`, every
other product, the key set of the catalog, the whole customer map (every record with its name,
email and `Cart` reference, and the key set), every other entry of the cart of `e`, every
other cart map object, and hence the cart of every customer whose `Cart` is not the map
object of `e`. -/
theorem AddToCart_frame (s s1 : Store) (e p : String) (q : GoInt)
    (h : AddToCart s e p q = some (s1, none)) :
    (∃ prod prod1, s.repo.products.get p = some prod ∧ s1.repo.products.get p = some prod1 ∧
      prod1.Name = prod.Name ∧ prod1.Price = prod.Price) ∧
    (∀ p2, p2 ≠ p → s1.repo.products.get p2 = s.repo.products.get p2) ∧
    s1.repo.products.keys = s.repo.products.keys ∧
    s1.repo.customers = s.repo.customers ∧
    ∃ c a, s.repo.customers.get e = some c ∧ c.Cart = some a ∧
      (∀ p2, p2 ≠ p → (s1.cart c).get p2 = (s.cart c).get p2) ∧
      (∀ b, b ≠ a → s1.heap b = s.heap b) ∧
      (∀ c2 : Customer, c2.Cart ≠ c.Cart → s1.cart c2 = s.cart c2) := by
  rcases AddToCart_cases s s1 e p q none h with h1 | h1 | h1 | h1
  · exact absurd h1.2.1 (by simp)
  · exact absurd h1.2.1 (by simp)
  · exact absurd h1.2.1 (by simp)
  · obtain ⟨-, c, prod, a, hc, hp, -, ha, rfl⟩ := h1
    refine ⟨⟨prod, _, hp, GoMap.get_set_self _ _ _, rfl, rfl⟩,
      fun p2 hp2 => GoMap.get_set_ne _ _ _ p2 hp2,
      setEntries_keys_of_lookup p _ prod _ hp, rfl, c, a, hc, ha, ?_, ?_, ?_⟩
    · intro p2 hp2
      simp only [Store.cart, ha, Function.update_same]
      exact GoMap.get_set_ne _ _ _ p2 hp2
    · intro b hb
      exact Function.update_noteq hb _ _
    · intro c2 hc2
      cases hcart : c2.Cart with
      | none => simp [Store.cart, hcart]
      | some b =>
        have hb : b ≠ a := by
          rintro rfl
          exact hc2 (hcart.trans ha.symm)
        simp only [Store.cart, hcart, Function.update_noteq hb]

/-- Reserving 4 Widgets in a cart that holds 3 leaves the customer map as it was. -/
theorem AddToCart_frame_witness :
    AddToCart (shopWith int10 custC heapWidget3) "c" "Widget" int4 = some (shopAfter4, none) ∧
    shopAfter4.repo.customers = (shopWith int10 custC heapWidget3).repo.customers ∧
    shopAfter4.repo.products.keys = (shopWith int10 custC heapWidget3).repo.products.keys :=
  ⟨rfl, (AddToCart_frame (shopWith int10 custC heapWidget3) shopAfter4 "c" "Widget" int4 rfl).2.2.2.1,
   (AddToCart_frame (shopWith int10 custC heapWidget3) shopAfter4 "c" "Widget" int4 rfl).2.2.1⟩

/-! ## Reserved quantity plus remaining stock -/

/-- Rewriting the map object at address `a` changes the reserved sum by the change of that
one cart, provided at most one customer points to it. -/
theorem reserved_sum_update (l : List (String × Customer)) (r : Repository)
    (heap : Nat → GoMap GoInt) (a : Nat) (m1 : GoMap GoInt) (p : String)
    (hn : (l.filterMap (fun kv => kv.2.Cart)).Nodup) :
    (l.map (fun kv => cartQty ((Store.mk r (Function.update heap a m1)).cart kv.2) p)).sum
      = (l.map (fun kv => cartQty ((Store.mk r heap).cart kv.2) p)).sum
        + (if a ∈ l.filterMap (fun kv => kv.2.Cart) then cartQty m1 p - cartQty (heap a) p
           else 0) := by
  induction l with
  | nil => simp
  | cons hd tl ih =>
    obtain ⟨k, c⟩ := hd
    cases hcart : c.Cart with
    | none =>
      have hn2 : (tl.filterMap (fun kv => kv.2.Cart)).Nodup := by
        simpa [List.filterMap_cons, hcart] using hn
      have ih2 := ih hn2
      simp only [List.map_cons, List.sum_cons, List.filterMap_cons, hcart, Store.cart] at ih2 ⊢
      rw [ih2]
      ring
    | some b =>
      have hn2 : b ∉ tl.filterMap (fun kv => kv.2.Cart) ∧
          (tl.filterMap (fun kv => kv.2.Cart)).Nodup := by
        simpa [List.filterMap_cons, hcart] using hn
      have ih2 := ih hn2.2
      simp only [List.map_cons, List.sum_cons, List.filterMap_cons, hcart, Store.cart,
        List.mem_cons] at ih2 ⊢
      rw [ih2]
      by_cases hb : b = a
      · subst hb
        have hnot : b ∉ tl.filterMap (fun kv => kv.2.Cart) := hn2.1
        simp only [Function.update_same, hnot, if_false, true_or, if_true]
        ring
      · have hab : ¬ a = b := fun e => hb e.symm
        simp only [Function.update_noteq hb, hab, false_or]
        ring

theorem cartQty_nonneg_of_entries (m : GoMap GoInt) (p : String)
    (h : ∀ x ∈ m.entries, 0 ≤ x.2.toInt) : 0 ≤ cartQty m p := by
  unfold cartQty
  cases hg : m.get p with
  | none => exact le_rfl
  | some v => exact h (p, v) (mem_of_lookup _ p v hg)

theorem step_keeps_CartsNonNeg (s s1 : Store) (op : Op) (h0 : CartsNonNeg s)
    (hq : op.quantityPos) (h : step s op = some s1) : CartsNonNeg s1 := by
  rcases step_cases s s1 op h with h1 | ⟨e, p, q, c, prod, a, rfl, -, -, -, -, rfl⟩
  · subst h1; exact h0
  · intro kv hkv x hx
    have hold := h0 kv hkv
    cases hcart : kv.2.Cart with
    | none =>
      simp only [Store.cart, hcart] at hx hold
      exact hold x hx
    | some b =>
      simp only [Store.cart, hcart] at hx hold
      by_cases hb : b = a
      · subst hb
        simp only [Function.update_same, GoMap.set] at hx
        rcases mem_setEntries p q _ x hx with h2 | h2
        · subst h2
          exact le_of_lt hq
        · exact hold x h2
      · simp only [Function.update_noteq hb] at hx
        exact hold x hx

/-- A returning call with a quantity above zero does not raise, for any product, the sum of
what is reserved and what is in stock, as long as no two customers share a cart map. -/
theorem step_total_le (s s1 : Store) (op : Op) (hshare : NoSharedCart s)
    (hcarts : CartsNonNeg s) (hq : op.quantityPos) (h : step s op = some s1) (p2 : String) :
    s1.reserved p2 + s1.stockInt p2 ≤ s.reserved p2 + s.stockInt p2 := by
  rcases step_cases s s1 op h with h1 | ⟨e, p, q, c, prod, a, rfl, hc, hp, hle, ha, rfl⟩
  · subst h1; exact le_rfl
  · have hqpos : 0 < q.toInt := hq
    have hmemc : (e, c) ∈ s.repo.customers.entries := mem_of_lookup _ e c hc
    have hmem : a ∈ s.repo.customers.entries.filterMap (fun kv => kv.2.Cart) :=
      List.mem_filterMap.mpr ⟨(e, c), hmemc, ha⟩
    have hsum := reserved_sum_update s.repo.customers.entries
      ⟨s.repo.products.set p { prod with Quantity := prod.Quantity.sub q }, s.repo.customers⟩
      s.heap a ((s.heap a).set p q) p2 hshare
    have hsame : (s.repo.customers.entries.map (fun kv => cartQty
        ((Store.mk ⟨s.repo.products.set p { prod with Quantity := prod.Quantity.sub q },
          s.repo.customers⟩ s.heap).cart kv.2) p2)).sum = s.reserved p2 := rfl
    rw [hsame, if_pos hmem] at hsum
    have hres : (Store.mk ⟨s.repo.products.set p { prod with Quantity := prod.Quantity.sub q },
        s.repo.customers⟩ (Function.update s.heap a ((s.heap a).set p q))).reserved p2
        = s.reserved p2 + (cartQty ((s.heap a).set p q) p2 - cartQty (s.heap a) p2) := hsum
    rw [hres]
    by_cases hp2 : p2 = p
    · subst hp2
      have hold : 0 ≤ cartQty (s.heap a) p2 := by
        apply cartQty_nonneg_of_entries
        have := hcarts (e, c) hmemc
        simpa only [Store.cart, ha] using this
      have hnew : cartQty ((s.heap a).set p2 q) p2 = q.toInt := by
        simp only [cartQty, GoMap.get_set_self]
      have hmin : minInt ≤ 0 := by decide
      have hhi := prod.Quantity.hi
      have hlo : minInt ≤ prod.Quantity.toInt - q.toInt := by omega
      have hov : prod.Quantity.toInt - q.toInt ≤ maxInt := by omega
      have hst1 : (Store.mk ⟨s.repo.products.set p2 { prod with Quantity := prod.Quantity.sub q },
          s.repo.customers⟩ (Function.update s.heap a ((s.heap a).set p2 q))).stockInt p2
          = prod.Quantity.toInt - q.toInt := by
        simp only [Store.stockInt, GoMap.get_set_self, GoInt.sub, GoInt.ofInt,
          wrapInt_of_inRange _ hlo hov]
      have hst0 : s.stockInt p2 = prod.Quantity.toInt := by
        simp only [Store.stockInt, hp]
      rw [hst1, hst0, hnew]
      omega
    · have hnew : cartQty ((s.heap a).set p q) p2 = cartQty (s.heap a) p2 := by
        simp only [cartQty, GoMap.get_set_ne _ _ _ p2 hp2]
      have hst1 : (Store.mk ⟨s.repo.products.set p { prod with Quantity := prod.Quantity.sub q },
          s.repo.customers⟩ (Function.update s.heap a ((s.heap a).set p q))).stockInt p2
          = s.stockInt p2 := by
        simp only [Store.stockInt, GoMap.get_set_ne _ _ _ p2 hp2]
      rw [hst1, hnew]
      omega

theorem noWrap_of_quantityPos (s : Store) (op : Op) (h : op.quantityPos) : op.noWrap s := by
  apply noWrap_of_quantityNonNeg
  cases op with
  | addToCart e p q => exact le_of_lt h
  | viewProducts => trivial
  | viewProductDetails n => trivial
  | viewCart e => trivial

theorem reserved_eq_zero_of_CartsEmpty (s : Store) (h : CartsEmpty s) (p : String) :
    s.reserved p = 0 := by
  unfold Store.reserved
  apply List.sum_eq_zero
  intro x hx
  obtain ⟨kv, hkv, rfl⟩ := List.mem_map.mp hx
  have h1 : (s.cart kv.2).entries = [] := List.length_eq_zero.mp (h kv hkv)
  simp [cartQty, GoMap.get, h1, List.lookup]

theorem stockInt_nonneg (s : Store) (h : NonNegStock s) (p : String) : 0 ≤ s.stockInt p := by
  unfold Store.stockInt
  cases hg : s.repo.products.get p with
  | none => exact le_rfl
  | some prod => exact h (p, prod) (mem_of_lookup _ p prod hg)

/-- C12, as stated, fails: customers `c` and `d` hold the same (empty) cart map object and the
stock of `Widget` is 10; after `AddToCart(c, Widget, 4)` both carts show 4, so 8 are reserved
and 6 remain, 14 in all. -/
theorem C12_counterexample :
    CartsEmpty (shopShared int10) ∧ NonNegStock (shopShared int10) ∧
    (∀ op ∈ [Op.addToCart "c" "Widget" int4], op.quantityPos) ∧
    (run (shopShared int10) [Op.addToCart "c" "Widget" int4]).reserved "Widget" = 8 ∧
    (run (shopShared int10) [Op.addToCart "c" "Widget" int4]).stockInt "Widget" = 6 ∧
    ¬ ((run (shopShared int10) [Op.addToCart "c" "Widget" int4]).reserved "Widget"
        + (run (shopShared int10) [Op.addToCart "c" "Widget" int4]).stockInt "Widget"
      ≤ (shopShared int10).stockInt "Widget") := by
  refine ⟨by decide, by decide, by decide, by decide, by decide, by decide⟩

/-- C12 (amended): starting from a store in which every cart is empty, every stock is at
least zero and no two customers share a cart map object, after any finite sequence of calls
whose `AddToCart` quantities are all above zero, for every product the stock is still at
least zero and the sum of what all customers have reserved of it and what remains in stock
does not exceed the stock it had at the start. -/
theorem reserved_plus_stock_bounded (s : Store) (ops : List Op) (hempty : CartsEmpty s)
    (hstock : NonNegStock s) (hshare : NoSharedCart s) (hq : ∀ op ∈ ops, op.quantityPos) :
    ∀ p, 0 ≤ (run s ops).stockInt p ∧
      (run s ops).reserved p + (run s ops).stockInt p ≤ s.stockInt p := by
  have hcarts : CartsNonNeg s := by
    intro kv hkv x hx
    have h1 : (s.cart kv.2).entries = [] := List.length_eq_zero.mp (hempty kv hkv)
    rw [h1] at hx
    exact absurd hx (List.not_mem_nil _)
  have h := run_invariant
    (fun t => t.repo.customers = s.repo.customers ∧ CartsNonNeg t ∧ NonNegStock t ∧
      ∀ p, t.reserved p + t.stockInt p ≤ s.reserved p + s.stockInt p) ops
    (fun op hop t t1 ht hstep => by
      have hsh : NoSharedCart t := by
        unfold NoSharedCart
        rw [ht.1]
        exact hshare
      exact ⟨(step_keeps_keys t t1 op hstep).2.trans ht.1,
        step_keeps_CartsNonNeg t t1 op ht.2.1 (hq op hop) hstep,
        step_keeps_NonNegStock t t1 op ht.2.2.1 (noWrap_of_quantityPos t op (hq op hop)) hstep,
        fun p => le_trans (step_total_le t t1 op hsh ht.2.1 (hq op hop) hstep p) (ht.2.2.2 p)⟩)
    s ⟨rfl, hcarts, hstock, fun _ => le_rfl⟩
  intro p
  refine ⟨stockInt_nonneg _ h.2.2.1 p, ?_⟩
  have h2 := h.2.2.2 p
  rw [reserved_eq_zero_of_CartsEmpty s hempty p] at h2
  omega

/-- Ten Widgets: customer `c` reserves 4, then 3, then asks for 20 in vain; 3 are reserved and
3 remain, together no more than the 10 of the start. -/
theorem reserved_plus_stock_bounded_witness :
    CartsEmpty (shopWith int10 custC emptyHeap) ∧ NoSharedCart (shopWith int10 custC emptyHeap) ∧
    (0 ≤ (run (shopWith int10 custC emptyHeap) [Op.addToCart "c" "Widget" int4,
        Op.addToCart "c" "Widget" int3, Op.addToCart "c" "Widget" int20]).stockInt "Widget" ∧
      (run (shopWith int10 custC emptyHeap) [Op.addToCart "c" "Widget" int4,
        Op.addToCart "c" "Widget" int3, Op.addToCart "c" "Widget" int20]).reserved "Widget"
      + (run (shopWith int10 custC emptyHeap) [Op.addToCart "c" "Widget" int4,
        Op.addToCart "c" "Widget" int3, Op.addToCart "c" "Widget" int20]).stockInt "Widget"
      ≤ (shopWith int10 custC emptyHeap).stockInt "Widget") :=
  ⟨by decide, by decide,
   reserved_plus_stock_bounded (shopWith int10 custC emptyHeap) _ (by decide) (by decide)
    (by decide) (by decide) "Widget"⟩

end Shop
